import Mathlib

/-!
Verification of the merge-command core of github-review-helper
(`merge_command.go`).

The stateful Go code is embedded shallowly: every remote collaborator call
(labels, comments, PR fetch, merge, combined status, search, squash) is an
oracle recorded in an `Env` structure that fixes the outcome of each call,
and every core function returns, next to its Go return value, the trace of
remote calls it performed, in order.  Go pointer dereferences of nullable
fields (`*pr.Merged`, `*pr.Mergeable`) are embedded as `Option Bool`
lookups; a `none` dereference makes the whole run return `none`, modelling
the Go runtime panic.
-/

namespace GRH

/-- Modelled from the spec: repository identity (owner plus name) from the
data model of spec section 3; the concrete Go type lives outside
`merge_command.go`. -/
structure Repository where
  owner : String
  name : String
deriving DecidableEq

/-- Modelled from the spec: the PR author, identified by login (spec
section 3, Issue.User). -/
structure User where
  login : String
deriving DecidableEq

/-- Modelled from the spec: an Issue is {Number, Repository, User} (spec
section 3); it identifies a PR's comment-thread and label target. -/
structure Issue where
  number : Nat
  repository : Repository
  user : User
deriving DecidableEq

/-- Modelled from the spec: the full name of a PR as used in user-facing
messages; the scenario in spec section 8 shows the shape
"Successfully merged PR owner/repo#7", so the full name is
owner/name#number.  The Go `FullName` method lives outside
`merge_command.go`. -/
def Issue.fullName (issue : Issue) : String :=
  issue.repository.owner ++ "/" ++ issue.repository.name ++ "#" ++ toString issue.number

/-- Modelled from the spec: the triggering comment event payload (spec
section 3, IssueComment): the issue coordinates the comment was made on.
The body text is consumed only by the command detector, which receives it
directly as a string. -/
structure IssueComment where
  issueNumber : Nat
  repository : Repository
  user : User
deriving DecidableEq

/-- Modelled from the spec: the `Issue()` accessor of an IssueComment,
assembling the Issue record the merge path works on. -/
def IssueComment.issue (ic : IssueComment) : Issue :=
  { number := ic.issueNumber, repository := ic.repository, user := ic.user }

/-- Modelled from the spec: one branch-name/SHA pair of a status event
payload (spec section 3, StatusEvent.Branches). -/
structure Branch where
  name : String
  sha : String
deriving DecidableEq

/-- Modelled from the spec: a commit status update event (spec section 3):
SHA, state, repository and the branches whose head the commit is. -/
structure StatusEvent where
  sha : String
  state : String
  repository : Repository
  branches : List Branch
deriving DecidableEq

/-- Modelled from the spec: one per-context commit status entry (spec
section 3, RepoStatus list): {Context, State}. -/
structure RepoStatus where
  context : String
  state : String
deriving DecidableEq

/-- Modelled from the spec: the fields of a fetched PullRequest the core
consumes (spec section 3): Merged, Mergeable and the head SHA.  Merged and
Mergeable are nullable in the wire type (`*bool` in Go), embedded as
`Option Bool`. -/
structure PullRequest where
  merged : Option Bool
  mergeable : Option Bool
  headSHA : String
deriving DecidableEq

/-- Modelled from the spec: the fields of one search result the re-trigger
path consumes (spec section 4.6): issue number and author login. -/
structure SearchIssue where
  number : Nat
  userLogin : String
deriving DecidableEq

/-- Modelled from the spec: a Go `error` value returned by a remote call;
the merge call distinguishes a conflict-class error from all others (spec
section 6). -/
inductive GoError where
  | mergeConflict : GoError
  | remote : String → GoError
deriving DecidableEq

/-- The distinguished merge-conflict error (`ErrMergeConflict` in Go). -/
def ErrMergeConflict : GoError := GoError.mergeConflict

/-- Modelled from the spec: the Error arm of a Response carries the
underlying cause, an HTTP-style status code and a user-facing message
(spec section 3). -/
structure ErrorResponse where
  error : GoError
  code : Nat
  errorMessage : String
deriving DecidableEq

/-- The HTTP 502 Bad Gateway code used for remote-call failures. -/
def StatusBadGateway : Nat := 502

/-- Modelled from the spec: the polymorphic Response type (spec section 3):
Success with a message, or an ErrorResponse. -/
inductive Response where
  | success : String → Response
  | error : ErrorResponse → Response
deriving DecidableEq

/-- One remote call performed by the core, as recorded in a run's trace.
`logError` records an error being written to the log. -/
inductive Effect where
  | addLabelCall : Repository → Nat → String → Effect
  | removeLabelCall : Repository → Nat → String → Effect
  | getPRCall : Repository → Nat → Effect
  | getStatusesCall : Repository → String → Effect
  | mergeCall : Repository → Nat → Effect
  | commentCall : String → Repository → Nat → Effect
  | squashCall : Repository → String → Effect
  | searchCall : String → Effect
  | logError : ErrorResponse → Effect
deriving DecidableEq

/-- Modelled from the spec: the remote collaborators of spec section 6 as a
deterministic oracle fixing the outcome of every call.  Label, comment and
merge calls yield `none` on success; `getPRResult` and `getStatusesResult`
yield the fetched data or the gateway-class ErrorResponse the wrapper in
the repository builds from the remote failure; `searchResult` yields the
matching issues or the remote error; `squashResult` is the Response of the
squash-and-report step, which spec section 4.3 treats as a black box. -/
structure Env where
  addLabelResult : Repository → Nat → String → Option ErrorResponse
  removeLabelResult : Repository → Nat → String → Option ErrorResponse
  getPRResult : Repository → Nat → Except ErrorResponse PullRequest
  getStatusesResult : String → Except ErrorResponse (String × List RepoStatus)
  mergeResult : Repository → Nat → Option GoError
  commentResult : String → Repository → Nat → Option GoError
  squashResult : Repository → String → Response
  searchResult : String → Except GoError (List SearchIssue)

/-- The "merging" label constant (`MergingLabel` in the source). -/
def MergingLabel : String := "merging"

/-- Modelled from the spec: the designated squash status context
(`githubStatusSquashContext`, defined outside `merge_command.go`); spec
glossary: the status context of the asynchronous squash preparation step.
Only its identity matters here. -/
def githubStatusSquashContext : String := "squash"

/-- Whitespace as trimmed by Go strings.TrimSpace: the ASCII space
characters together with the Latin-1 next line and no-break space
characters (the Unicode space characters outside Latin-1 are not
modelled; none can appear around an ASCII command). -/
def goIsSpace (c : Char) : Bool :=
  c == '\t' || c == '\n' || c == '\x0b' || c == '\x0c' || c == '\r' ||
    c == ' ' || c == '\x85' || c == '\xa0'

/-- Go strings.TrimSpace on the embedded character list: drop whitespace
from both ends. -/
def trimSpace (s : String) : String :=
  String.mk (((s.data.dropWhile goIsSpace).reverse.dropWhile goIsSpace).reverse)

/-- `isMergeCommand` from the source: the trimmed comment must be exactly
the literal "!merge". -/
def isMergeCommand (comment : String) : Bool :=
  trimSpace comment == "!merge"

/-- `isStatusForBranchHead` from the source: the event SHA equals the SHA
of at least one branch in the event payload. -/
def isStatusForBranchHead (statusEvent : StatusEvent) : Bool :=
  statusEvent.branches.any (fun branch => statusEvent.sha == branch.sha)

/-- `newPullRequestsPossiblyReadyForMerging` from the source: only success
events for a branch head can change a PR's combined status. -/
def newPullRequestsPossiblyReadyForMerging (statusEvent : StatusEvent) : Bool :=
  statusEvent.state == "success" && isStatusForBranchHead statusEvent

/-- `containsPendingSquashStatus` from the source: some status entry has
the squash context and pending state. -/
def containsPendingSquashStatus (statuses : List RepoStatus) : Bool :=
  statuses.any (fun status =>
    status.context == githubStatusSquashContext && status.state == "pending")

/-- The comment text `handleMergeConflict` posts, from the source format
string: mentions the author by login. -/
def conflictCommentMessage (issue : Issue) : String :=
  "I\x27m unable to merge this PR because of a merge conflict. @" ++
    issue.user.login ++ ", can you please take a look?"

/-- `handleMergeConflict` from the source: remove the "merging" label
(keeping the failure, if any, without aborting), post the conflict comment
mentioning the author, then return the comment failure if the comment
failed, else the earlier label-removal failure, else nil. -/
def handleMergeConflict (env : Env) (issue : Issue) :
    Option ErrorResponse × List Effect :=
  let removeLabelErrResp :=
    env.removeLabelResult issue.repository issue.number MergingLabel
  let message := conflictCommentMessage issue
  let trace := [Effect.removeLabelCall issue.repository issue.number MergingLabel,
                Effect.commentCall message issue.repository issue.number]
  match env.commentResult message issue.repository issue.number with
  | some err =>
      (some { error := err, code := StatusBadGateway,
              errorMessage := "Failed to notify the author of PR " ++
                issue.fullName ++ " about the merge conflict" }, trace)
  | none =>
      match removeLabelErrResp with
      | some r => (some r, trace)
      | none => (none, trace)

/-- `mergeReadyPR` from the source: call merge; on the conflict error run
the conflict handler; on any other error return a gateway ErrorResponse
naming the PR; on success remove the "merging" label and propagate its
failure, if any. -/
def mergeReadyPR (env : Env) (issue : Issue) :
    Option ErrorResponse × List Effect :=
  match env.mergeResult issue.repository issue.number with
  | some GoError.mergeConflict =>
      let (r, t) := handleMergeConflict env issue
      (r, Effect.mergeCall issue.repository issue.number :: t)
  | some err =>
      (some { error := err, code := StatusBadGateway,
              errorMessage := "Failed to merge PR " ++ issue.fullName },
       [Effect.mergeCall issue.repository issue.number])
  | none =>
      let t := [Effect.mergeCall issue.repository issue.number,
                Effect.removeLabelCall issue.repository issue.number MergingLabel]
      match env.removeLabelResult issue.repository issue.number MergingLabel with
      | some errResp => (some errResp, t)
      | none => (none, t)

/-- `handleMergeCommand` from the source: add the "merging" label (abort on
failure), fetch the PR, short-circuit on already-merged (remove label) and
on not-mergeable, evaluate the combined status, retry a pending squash,
wait on any non-success state, and otherwise merge via `mergeReadyPR`.
The whole run is `none` when a nil `Merged` or `Mergeable` pointer is
dereferenced (a Go runtime panic). -/
def handleMergeCommand (env : Env) (ic : IssueComment) :
    Option (Response × List Effect) :=
  let repo := ic.repository
  let num := ic.issueNumber
  let t0 := [Effect.addLabelCall repo num MergingLabel]
  match env.addLabelResult repo num MergingLabel with
  | some errResp => some (Response.error errResp, t0)
  | none =>
    let t1 := t0 ++ [Effect.getPRCall repo num]
    match env.getPRResult repo num with
    | Except.error errResp => some (Response.error errResp, t1)
    | Except.ok pr =>
      match pr.merged with
      | none => none
      | some merged =>
        if merged then
          let t2 := t1 ++ [Effect.removeLabelCall repo num MergingLabel]
          match env.removeLabelResult repo num MergingLabel with
          | some errResp => some (Response.error errResp, t2)
          | none => some (Response.success "", t2)
        else
          match pr.mergeable with
          | none => none
          | some mergeable =>
            if !mergeable then some (Response.success "", t1)
            else
              let t2 := t1 ++ [Effect.getStatusesCall repo pr.headSHA]
              match env.getStatusesResult pr.headSHA with
              | Except.error errResp => some (Response.error errResp, t2)
              | Except.ok (state, statuses) =>
                if state == "pending" && containsPendingSquashStatus statuses then
                  some (env.squashResult repo pr.headSHA,
                        t2 ++ [Effect.squashCall repo pr.headSHA])
                else if state != "success" then
                  some (Response.success "", t2)
                else
                  let issue := ic.issue
                  match mergeReadyPR env issue with
                  | (some errResp, t) => some (Response.error errResp, t2 ++ t)
                  | (none, t) =>
                      some (Response.success
                              ("Successfully merged PR " ++ issue.fullName),
                            t2 ++ t)

/-- The search query string built by `mergePullRequestsReadyForMerging`,
from the source format string. -/
def searchQuery (statusEvent : StatusEvent) : String :=
  statusEvent.sha ++ " label:\"" ++ MergingLabel ++ "\" is:open repo:" ++
    statusEvent.repository.owner ++ "/" ++ statusEvent.repository.name ++
    " status:success"

/-- The Issue built from one search result inside the loop of
`mergePullRequestsReadyForMerging`, from the source: number and author
from the search result, repository from the event. -/
def issueOfSearchResult (statusEvent : StatusEvent) (issueToMerge : SearchIssue) :
    Issue :=
  { number := issueToMerge.number,
    repository := statusEvent.repository,
    user := { login := issueToMerge.userLogin } }

/-- One iteration of the loop of `mergePullRequestsReadyForMerging`, from
the source: run `mergeReadyPR` for the candidate; on failure overwrite the
pending final error, logging the previous one first when it exists. -/
def mergeLoopStep (env : Env) (statusEvent : StatusEvent)
    (acc : Option ErrorResponse × List Effect) (issueToMerge : SearchIssue) :
    Option ErrorResponse × List Effect :=
  let issue := issueOfSearchResult statusEvent issueToMerge
  let (res, t) := mergeReadyPR env issue
  match res with
  | some errResp =>
      match acc.1 with
      | none => (some errResp, acc.2 ++ t)
      | some prev => (some errResp, acc.2 ++ t ++ [Effect.logError prev])
  | none => (acc.1, acc.2 ++ t)

/-- `mergePullRequestsReadyForMerging` from the source: search for open
PRs with the "merging" label and success status on the event SHA, try to
merge each candidate in order keeping only the last failure (logging
superseded ones), and on no failure return Success with the candidate
count. -/
def mergePullRequestsReadyForMerging (env : Env) (statusEvent : StatusEvent) :
    Response × List Effect :=
  let query := searchQuery statusEvent
  let t0 := [Effect.searchCall query]
  match env.searchResult query with
  | Except.error err =>
      (Response.error { error := err, code := StatusBadGateway,
                        errorMessage := "Searching for issues with query \x27" ++
                          query ++ "\x27 failed" }, t0)
  | Except.ok issuesToMerge =>
      match issuesToMerge.foldl (mergeLoopStep env statusEvent) (none, t0) with
      | (some e, t) => (Response.error e, t)
      | (none, t) =>
          (Response.success
             ("Successfully merged " ++ toString issuesToMerge.length ++ " PRs"),
           t)

/-- Number of merge calls in a trace. -/
def countMergeCalls (t : List Effect) : Nat :=
  t.countP (fun e => match e with
    | Effect.mergeCall _ _ => true
    | _ => false)

/-- Number of removals of the "merging" label in a trace. -/
def countRemoveLabelCalls (t : List Effect) : Nat :=
  t.countP (fun e => match e with
    | Effect.removeLabelCall _ _ _ => true
    | _ => false)

/-- Number of comment posts in a trace. -/
def countCommentCalls (t : List Effect) : Nat :=
  t.countP (fun e => match e with
    | Effect.commentCall _ _ _ => true
    | _ => false)

/-- The effect of one trace entry on the presence of the "merging" label of
the PR (repo, num), assuming the recorded label calls succeeded on the
remote. -/
def labelStep (repo : Repository) (num : Nat) (l : Bool) : Effect → Bool
  | Effect.addLabelCall r n lbl =>
      if r = repo ∧ n = num ∧ lbl = MergingLabel then true else l
  | Effect.removeLabelCall r n lbl =>
      if r = repo ∧ n = num ∧ lbl = MergingLabel then false else l
  | _ => l

/-- Presence of the "merging" label of the PR (repo, num) after a trace,
starting from presence l0, assuming the recorded label calls succeeded on
the remote. -/
def labelAfter (repo : Repository) (num : Nat) (t : List Effect) (l0 : Bool) : Bool :=
  t.foldl (labelStep repo num) l0

/-- Whether one trace entry resolves the pending merge command of the PR
(repo, num) in the sense of the spec invariant: the PR was fetched and
found already merged, the merge call succeeded, or the conflict
notification comment was delivered. -/
def resolvesFor (env : Env) (repo : Repository) (num : Nat) : Effect → Bool
  | Effect.getPRCall r n =>
      decide (r = repo) && decide (n = num) &&
        (match env.getPRResult r n with
         | Except.ok pr => decide (pr.merged = some true)
         | Except.error _ => false)
  | Effect.mergeCall r n =>
      decide (r = repo) && decide (n = num) && decide (env.mergeResult r n = none)
  | Effect.commentCall m r n =>
      decide (r = repo) && decide (n = num) && decide (env.commentResult m r n = none)
  | _ => false

/-- Whether a run with the given trace resolved the merge command of the
PR (repo, num): merged, found already merged, or failed with the conflict
notification delivered. -/
def runResolvedFor (env : Env) (repo : Repository) (num : Nat) (t : List Effect) : Bool :=
  t.any (resolvesFor env repo num)

/-- The label/command invariant of the spec, stated for every operation of
the core: after a run of any operation, assuming all label and comment
calls succeed remotely, the PR processed carries the "merging" label iff
the accepted merge command was not resolved by the run (for
`handleMergeCommand` the command is accepted during the run; for the other
operations a pending command, with the label present, is the entry
precondition). -/
def mergingLabelInvariant (env : Env) : Prop :=
  (∀ ic resp t, handleMergeCommand env ic = some (resp, t) →
     ∀ l0, labelAfter ic.repository ic.issueNumber t l0 =
       !(runResolvedFor env ic.repository ic.issueNumber t)) ∧
  (∀ issue, labelAfter issue.repository issue.number (mergeReadyPR env issue).2 true =
     !(runResolvedFor env issue.repository issue.number (mergeReadyPR env issue).2)) ∧
  (∀ issue, labelAfter issue.repository issue.number (handleMergeConflict env issue).2 true =
     !(runResolvedFor env issue.repository issue.number (handleMergeConflict env issue).2)) ∧
  (∀ se l, env.searchResult (searchQuery se) = Except.ok l →
     ∀ c ∈ l, labelAfter se.repository c.number
         (mergePullRequestsReadyForMerging env se).2 true =
       !(runResolvedFor env se.repository c.number
           (mergePullRequestsReadyForMerging env se).2))

/-- The failures among the candidates of a re-trigger run, in candidate
order. -/
def candidateFailures (env : Env) (statusEvent : StatusEvent)
    (l : List SearchIssue) : List ErrorResponse :=
  l.filterMap (fun c => (mergeReadyPR env (issueOfSearchResult statusEvent c)).1)

/-- The last element of a failure list, or the accumulator when the list is
empty: the value the overwrite policy of the loop keeps. -/
def lastErrOr (acc : Option ErrorResponse) : List ErrorResponse → Option ErrorResponse
  | [] => acc
  | f :: rest => lastErrOr (some f) rest

/-- The errors the overwrite policy writes to the log when folding a
failure list over an accumulator: each value is logged at the moment it is
overwritten. -/
def overwrittenLog (acc : Option ErrorResponse) :
    List ErrorResponse → List ErrorResponse
  | [] => []
  | f :: rest =>
      (match acc with
       | some prev => [prev]
       | none => []) ++ overwrittenLog (some f) rest

/-- The errors written to the log during a trace. -/
def loggedErrors (t : List Effect) : List ErrorResponse :=
  t.filterMap (fun e => match e with
    | Effect.logError err => some err
    | _ => none)

/-- Modelled from the spec: the webhook layer serializes the Response
upward and logs the underlying cause of an Error response (spec section 6:
the underlying cause is logged, not necessarily exposed verbatim).  It
appends that log write to the run's trace. -/
def serveAndLog : Response × List Effect → List Effect
  | (Response.error e, t) => t ++ [Effect.logError e]
  | (Response.success _, t) => t

/-- Concrete repository used by the witnesses. -/
def repoW : Repository := { owner := "owner", name := "repo" }

/-- Concrete author used by the witnesses. -/
def userW : User := { login := "alice" }

/-- Concrete triggering comment on PR number 7 used by the witnesses. -/
def icW : IssueComment := { issueNumber := 7, repository := repoW, user := userW }

/-- An open, mergeable PR fixture. -/
def prOpenW : PullRequest :=
  { merged := some false, mergeable := some true, headSHA := "headsha" }

/-- An all-success environment: every remote call succeeds, the PR is open
and mergeable with combined status success, the search returns nothing. -/
def envAllOkW : Env :=
  { addLabelResult := fun _ _ _ => none
    removeLabelResult := fun _ _ _ => none
    getPRResult := fun _ _ => Except.ok prOpenW
    getStatusesResult := fun _ => Except.ok ("success", [])
    mergeResult := fun _ _ => none
    commentResult := fun _ _ _ => none
    squashResult := fun _ _ => Response.success ""
    searchResult := fun _ => Except.ok [] }

/-- Environment in which the merge call hits a conflict, label calls and
the conflict comment succeed. -/
def envConflictOkW : Env :=
  { envAllOkW with mergeResult := fun _ _ => some GoError.mergeConflict }

/-- Environment in which the merge call hits a conflict, label calls
succeed, but posting the conflict comment fails. -/
def envConflictCommentFailW : Env :=
  { envAllOkW with
      mergeResult := fun _ _ => some GoError.mergeConflict
      commentResult := fun _ _ _ => some (GoError.remote "comment failed") }

/-- Issue fixture for the conflict counterexample, PR number 9. -/
def issueCexW : Issue := { number := 9, repository := repoW, user := userW }

/-- Environment whose fetched PR is already merged. -/
def envMergedW : Env :=
  { envAllOkW with
      getPRResult := fun _ _ =>
        Except.ok { merged := some true, mergeable := some true, headSHA := "headsha" } }

/-- Environment whose fetched PR is open but not mergeable. -/
def envNotMergeableW : Env :=
  { envAllOkW with
      getPRResult := fun _ _ =>
        Except.ok { merged := some false, mergeable := some false, headSHA := "headsha" } }

/-- Environment whose fetched PR has an unknown (null) Mergeable field. -/
def envNilMergeableW : Env :=
  { envAllOkW with
      getPRResult := fun _ _ =>
        Except.ok { merged := some false, mergeable := none, headSHA := "headsha" } }

/-- Environment in which adding the "merging" label fails. -/
def envAddFailW : Env :=
  { envAllOkW with
      addLabelResult := fun _ _ _ =>
        some { error := GoError.remote "add failed", code := StatusBadGateway,
               errorMessage := "could not add label" } }

/-- Status event fixture: a success state on a branch head. -/
def seW : StatusEvent :=
  { sha := "headsha", state := "success", repository := repoW,
    branches := [{ name := "feature", sha := "headsha" }] }

/-- Two search candidates that both merge cleanly. -/
def candidatesOkW : List SearchIssue :=
  [{ number := 1, userLogin := "alice" }, { number := 2, userLogin := "bob" }]

/-- Environment for the batch success scenario: the search returns two
candidates and every merge succeeds. -/
def envBatchOkW : Env :=
  { envAllOkW with searchResult := fun _ => Except.ok candidatesOkW }

/-- Four search candidates for the aggregation scenario. -/
def candidates4W : List SearchIssue :=
  [{ number := 1, userLogin := "alice" }, { number := 2, userLogin := "bob" },
   { number := 3, userLogin := "carol" }, { number := 4, userLogin := "dave" }]

/-- Environment for the aggregation scenario: the search returns four
candidates, and the merge call fails (with a non-conflict remote error)
exactly for candidates 2 and 4. -/
def envBatch24W : Env :=
  { envAllOkW with
      searchResult := fun _ => Except.ok candidates4W
      mergeResult := fun _ n =>
        if n = 2 then some (GoError.remote "boom2")
        else if n = 4 then some (GoError.remote "boom4")
        else none }

/-- The ErrorResponse produced for the failure of candidate 2. -/
def errResp2W : ErrorResponse :=
  { error := GoError.remote "boom2", code := StatusBadGateway,
    errorMessage := "Failed to merge PR owner/repo#2" }

/-- The ErrorResponse produced for the failure of candidate 4. -/
def errResp4W : ErrorResponse :=
  { error := GoError.remote "boom4", code := StatusBadGateway,
    errorMessage := "Failed to merge PR owner/repo#4" }

/-- The ErrorResponse the add-label failure environment returns. -/
def addFailErrW : ErrorResponse :=
  { error := GoError.remote "add failed", code := StatusBadGateway,
    errorMessage := "could not add label" }

/-- Label state threads through trace concatenation. -/
theorem labelAfter_append (repo : Repository) (num : Nat) (t1 t2 : List Effect)
    (l0 : Bool) :
    labelAfter repo num (t1 ++ t2) l0 =
      labelAfter repo num t2 (labelAfter repo num t1 l0) := by
  simp [labelAfter, List.foldl_append]

/-- Label state steps through a cons. -/
theorem labelAfter_cons (repo : Repository) (num : Nat) (e : Effect)
    (t : List Effect) (l0 : Bool) :
    labelAfter repo num (e :: t) l0 =
      labelAfter repo num t (labelStep repo num l0 e) := by
  simp [labelAfter]

/-- Resolution distributes over trace concatenation. -/
theorem runResolvedFor_append (env : Env) (repo : Repository) (num : Nat)
    (t1 t2 : List Effect) :
    runResolvedFor env repo num (t1 ++ t2) =
      (runResolvedFor env repo num t1 || runResolvedFor env repo num t2) := by
  simp [runResolvedFor]

/-- Resolution steps through a cons. -/
theorem runResolvedFor_cons (env : Env) (repo : Repository) (num : Nat)
    (e : Effect) (t : List Effect) :
    runResolvedFor env repo num (e :: t) =
      (resolvesFor env repo num e || runResolvedFor env repo num t) := by
  simp [runResolvedFor]

/-- After the conflict handler runs (label and comment calls succeeding
remotely), the label presence of any PR equals its prior presence gated on
the run not having resolved that PR's command. -/
theorem handleMergeConflict_label_resolved (env : Env) (issue : Issue)
    (hrl : ∀ r n lbl, env.removeLabelResult r n lbl = none)
    (hcm : ∀ m r n, env.commentResult m r n = none)
    (repo : Repository) (num : Nat) (b : Bool) :
    labelAfter repo num (handleMergeConflict env issue).2 b =
      (b && !(runResolvedFor env repo num (handleMergeConflict env issue).2)) := by
  by_cases h1 : issue.repository = repo <;> by_cases h2 : issue.number = num <;>
    simp [handleMergeConflict, hrl, hcm, labelAfter, labelStep, runResolvedFor,
      resolvesFor, h1, h2]

/-- After one merge attempt (label and comment calls succeeding remotely),
the label presence of any PR equals its prior presence gated on the run not
having resolved that PR's command. -/
theorem mergeReadyPR_label_resolved (env : Env) (issue : Issue)
    (hrl : ∀ r n lbl, env.removeLabelResult r n lbl = none)
    (hcm : ∀ m r n, env.commentResult m r n = none)
    (repo : Repository) (num : Nat) (b : Bool) :
    labelAfter repo num (mergeReadyPR env issue).2 b =
      (b && !(runResolvedFor env repo num (mergeReadyPR env issue).2)) := by
  rcases hmg : env.mergeResult issue.repository issue.number with - | err
  · have e0 : mergeReadyPR env issue =
        (none, [Effect.mergeCall issue.repository issue.number,
                Effect.removeLabelCall issue.repository issue.number MergingLabel]) := by
      simp [mergeReadyPR, hmg, hrl]
    rw [e0]
    have er : resolvesFor env repo num
        (Effect.mergeCall issue.repository issue.number) =
        (decide (issue.repository = repo) && decide (issue.number = num)) := by
      simp [resolvesFor, hmg]
    rw [labelAfter_cons, labelAfter_cons, runResolvedFor_cons, runResolvedFor_cons,
      er]
    by_cases h1 : issue.repository = repo <;> by_cases h2 : issue.number = num <;>
      simp [labelAfter, labelStep, resolvesFor, runResolvedFor, h1, h2]
  · cases err with
    | mergeConflict =>
        rcases hhc : handleMergeConflict env issue with ⟨cres, ct⟩
        have hconf := handleMergeConflict_label_resolved env issue hrl hcm repo num b
        rw [hhc] at hconf
        have e0 : mergeReadyPR env issue =
            (cres, Effect.mergeCall issue.repository issue.number :: ct) := by
          simp [mergeReadyPR, hmg, hhc]
        rw [e0, labelAfter_cons, runResolvedFor_cons]
        have e1 : labelStep repo num b
            (Effect.mergeCall issue.repository issue.number) = b := by
          simp [labelStep]
        have e2 : resolvesFor env repo num
            (Effect.mergeCall issue.repository issue.number) = false := by
          simp [resolvesFor, hmg]
        rw [e1, e2, hconf]
        simp
    | remote s =>
        simp [mergeReadyPR, hmg, labelAfter, labelStep, runResolvedFor, resolvesFor]

/-- After the whole candidate loop, the label presence of any PR equals its
presence after the incoming trace, gated on no candidate run having
resolved that PR's command. -/
theorem mergeLoop_foldl_labelAfter (env : Env) (se : StatusEvent)
    (hrl : ∀ r n lbl, env.removeLabelResult r n lbl = none)
    (hcm : ∀ m r n, env.commentResult m r n = none)
    (repo : Repository) (num : Nat) (l : List SearchIssue) :
    ∀ p l0, labelAfter repo num (l.foldl (mergeLoopStep env se) p).2 l0 =
      (labelAfter repo num p.2 l0 &&
        !(l.any (fun c => runResolvedFor env repo num
            (mergeReadyPR env (issueOfSearchResult se c)).2))) := by
  induction l with
  | nil => intro p l0; simp
  | cons c l ih =>
      intro p l0
      rw [List.foldl_cons, ih]
      rcases hmr : mergeReadyPR env (issueOfSearchResult se c) with ⟨res, tm⟩
      have hlab : ∀ b, List.foldl (labelStep repo num) b tm =
          (b && !(runResolvedFor env repo num tm)) := by
        intro b
        have h0 := mergeReadyPR_label_resolved env (issueOfSearchResult se c)
          hrl hcm repo num b
        rw [hmr] at h0
        simpa [labelAfter] using h0
      rcases res with - | e
      · simp [mergeLoopStep, hmr, labelAfter_append, labelAfter, labelStep, hlab,
          Bool.not_or, Bool.and_assoc]
      · rcases hp : p.1 with - | prev <;>
          simp [mergeLoopStep, hmr, hp, labelAfter_append, labelAfter, labelStep,
            hlab, Bool.not_or, Bool.and_assoc]

/-- After the whole candidate loop, a PR's command counts as resolved iff
it was already resolved in the incoming trace or some candidate run
resolved it. -/
theorem mergeLoop_foldl_resolved (env : Env) (se : StatusEvent)
    (repo : Repository) (num : Nat) (l : List SearchIssue) :
    ∀ p, runResolvedFor env repo num (l.foldl (mergeLoopStep env se) p).2 =
      (runResolvedFor env repo num p.2 ||
        l.any (fun c => runResolvedFor env repo num
          (mergeReadyPR env (issueOfSearchResult se c)).2)) := by
  induction l with
  | nil => intro p; simp
  | cons c l ih =>
      intro p
      rw [List.foldl_cons, ih]
      rcases hmr : mergeReadyPR env (issueOfSearchResult se c) with ⟨res, tm⟩
      rcases res with - | e
      · simp [mergeLoopStep, hmr, runResolvedFor_append, Bool.or_assoc]
      · rcases hp : p.1 with - | prev <;>
          simp [mergeLoopStep, hmr, hp, runResolvedFor_append, Bool.or_assoc,
            runResolvedFor, resolvesFor]

/-- After a comment-triggered run (label and comment calls succeeding
remotely), the processed PR carries the "merging" label iff the run did not
resolve the freshly accepted command. -/
theorem handleMergeCommand_label_resolved (env : Env)
    (hal : ∀ r n lbl, env.addLabelResult r n lbl = none)
    (hrl : ∀ r n lbl, env.removeLabelResult r n lbl = none)
    (hcm : ∀ m r n, env.commentResult m r n = none)
    (ic : IssueComment) (resp : Response) (t : List Effect)
    (h : handleMergeCommand env ic = some (resp, t)) (l0 : Bool) :
    labelAfter ic.repository ic.issueNumber t l0 =
      !(runResolvedFor env ic.repository ic.issueNumber t) := by
  rcases hpr : env.getPRResult ic.repository ic.issueNumber with epr | pr
  · simp [handleMergeCommand, hal, hpr] at h
    obtain ⟨h1, h2⟩ := h
    subst h2
    simp [labelAfter, labelStep, runResolvedFor, resolvesFor, hpr]
  · rcases hm : pr.merged with - | mflag
    · simp [handleMergeCommand, hal, hpr, hm] at h
    · cases mflag with
      | true =>
          simp [handleMergeCommand, hal, hpr, hm, hrl] at h
          obtain ⟨h1, h2⟩ := h
          subst h2
          simp [labelAfter, labelStep, runResolvedFor, resolvesFor, hpr, hm]
      | false =>
          rcases hmb : pr.mergeable with - | mb
          · simp [handleMergeCommand, hal, hpr, hm, hmb] at h
          · cases mb with
            | false =>
                simp [handleMergeCommand, hal, hpr, hm, hmb] at h
                obtain ⟨h1, h2⟩ := h
                subst h2
                simp [labelAfter, labelStep, runResolvedFor, resolvesFor, hpr, hm]
            | true =>
                rcases hst : env.getStatusesResult pr.headSHA with est | pairst
                · simp [handleMergeCommand, hal, hpr, hm, hmb, hst] at h
                  obtain ⟨h1, h2⟩ := h
                  subst h2
                  simp [labelAfter, labelStep, runResolvedFor, resolvesFor, hpr, hm]
                · rcases pairst with ⟨state, statuses⟩
                  rcases hcond : (state == "pending" &&
                      containsPendingSquashStatus statuses) with - | -
                  · rcases hsu : (state != "success") with - | -
                    · -- combined state is success: the merge path
                      rcases hmr : mergeReadyPR env ic.issue with ⟨res, tm⟩
                      have hlab := mergeReadyPR_label_resolved env ic.issue hrl hcm
                        ic.repository ic.issueNumber true
                      rw [hmr] at hlab
                      simp only [Bool.true_and] at hlab
                      have hoff : issueOfSearchResult = issueOfSearchResult := rfl
                      rcases res with - | e <;>
                        · simp [handleMergeCommand, hal, hpr, hm, hmb, hst, hcond,
                            hsu, hmr] at h
                          obtain ⟨h1, h2⟩ := h
                          subst h2
                          simp only [labelAfter_cons, runResolvedFor_cons]
                          simp [labelStep, resolvesFor, hpr, hm, hlab,
                            IssueComment.issue]
                    · -- waiting: combined state is not success
                      simp [handleMergeCommand, hal, hpr, hm, hmb, hst, hcond,
                        hsu] at h
                      obtain ⟨h1, h2⟩ := h
                      subst h2
                      simp [labelAfter, labelStep, runResolvedFor, resolvesFor,
                        hpr, hm]
                  · -- pending squash: the squash retry path
                    simp [handleMergeCommand, hal, hpr, hm, hmb, hst, hcond] at h
                    obtain ⟨h1, h2⟩ := h
                    subst h2
                    simp [labelAfter, labelStep, runResolvedFor, resolvesFor,
                      hpr, hm]

/-- Logged errors distribute over trace concatenation. -/
theorem loggedErrors_append (t1 t2 : List Effect) :
    loggedErrors (t1 ++ t2) = loggedErrors t1 ++ loggedErrors t2 := by
  simp [loggedErrors, List.filterMap_append]

/-- A single merge attempt writes no error to the log trail itself. -/
theorem loggedErrors_mergeReadyPR (env : Env) (issue : Issue) :
    loggedErrors (mergeReadyPR env issue).2 = [] := by
  rcases hmg : env.mergeResult issue.repository issue.number with - | err
  · rcases hr : env.removeLabelResult issue.repository issue.number MergingLabel
      with - | r <;> simp [mergeReadyPR, loggedErrors, hmg, hr]
  · cases err with
    | mergeConflict =>
        rcases hc : env.commentResult (conflictCommentMessage issue)
            issue.repository issue.number with - | ce <;>
          rcases hr : env.removeLabelResult issue.repository issue.number
              MergingLabel with - | r <;>
            simp [mergeReadyPR, handleMergeConflict, loggedErrors, hmg, hc, hr]
    | remote s => simp [mergeReadyPR, loggedErrors, hmg]

/-- The final error of the candidate loop is the overwrite fold of the
failure list over the incoming accumulator. -/
theorem mergeLoop_foldl_fst (env : Env) (se : StatusEvent) (l : List SearchIssue) :
    ∀ p, (l.foldl (mergeLoopStep env se) p).1 =
      lastErrOr p.1 (candidateFailures env se l) := by
  induction l with
  | nil => intro p; simp [candidateFailures, lastErrOr]
  | cons c l ih =>
      intro p
      rw [List.foldl_cons, ih]
      rcases hmr : mergeReadyPR env (issueOfSearchResult se c) with ⟨res, t⟩
      rcases res with - | e
      · simp [mergeLoopStep, hmr, candidateFailures, List.filterMap_cons, lastErrOr]
      · rcases hp : p.1 with - | prev <;>
          simp [mergeLoopStep, hmr, hp, candidateFailures, List.filterMap_cons,
            lastErrOr]

/-- The log trail of the candidate loop holds exactly the errors the
overwrite policy superseded. -/
theorem mergeLoop_foldl_logged (env : Env) (se : StatusEvent) (l : List SearchIssue) :
    ∀ p, loggedErrors (l.foldl (mergeLoopStep env se) p).2 =
      loggedErrors p.2 ++ overwrittenLog p.1 (candidateFailures env se l) := by
  induction l with
  | nil => intro p; simp [candidateFailures, overwrittenLog]
  | cons c l ih =>
      intro p
      rw [List.foldl_cons, ih]
      rcases hmr : mergeReadyPR env (issueOfSearchResult se c) with ⟨res, t⟩
      have hlt : loggedErrors t = [] := by
        have h0 := loggedErrors_mergeReadyPR env (issueOfSearchResult se c)
        rw [hmr] at h0; exact h0
      rcases res with - | e
      · simp [mergeLoopStep, hmr, candidateFailures, List.filterMap_cons,
          overwrittenLog, loggedErrors_append, hlt]
      · rcases hp : p.1 with - | prev <;>
          · simp [mergeLoopStep, hmr, hp, candidateFailures, List.filterMap_cons,
              overwrittenLog, loggedErrors_append, hlt, loggedErrors]
            intro a ha
            exact List.filterMap_eq_nil_iff.mp hlt a ha

/-- Overwrite log of a fold started on a pending error: everything but the
final element of the pending error followed by the failures. -/
theorem overwrittenLog_some (fs : List ErrorResponse) :
    ∀ p, overwrittenLog (some p) fs = (p :: fs).dropLast := by
  induction fs with
  | nil => intro p; simp [overwrittenLog]
  | cons f rest ih => intro p; simp [overwrittenLog, ih]

/-- Overwrite log of a fold started empty: every failure except the last. -/
theorem overwrittenLog_none (fs : List ErrorResponse) :
    overwrittenLog none fs = fs.dropLast := by
  cases fs with
  | nil => simp [overwrittenLog]
  | cons f rest => simp [overwrittenLog, overwrittenLog_some]

/-- The overwrite fold keeps the last failure when there is one. -/
theorem lastErrOr_eq_of_getLastEq (fs : List ErrorResponse) (e : ErrorResponse)
    (h : fs.getLast? = some e) : ∀ acc, lastErrOr acc fs = some e := by
  induction fs with
  | nil => simp at h
  | cons f t ih =>
      cases t with
      | nil =>
          intro acc
          simp at h
          simp [lastErrOr, h]
      | cons g t2 =>
          intro acc
          have h2 : (g :: t2).getLast? = some e := by simpa using h
          simpa [lastErrOr] using ih h2 (some f)

/-- Every member of a list with known last element is in the front part or
is that last element. -/
theorem mem_dropLast_or_eq_of_getLastEq (l : List ErrorResponse) (e : ErrorResponse)
    (h : l.getLast? = some e) : ∀ x ∈ l, x ∈ l.dropLast ∨ x = e := by
  induction l with
  | nil => simp at h
  | cons a t ih =>
      cases t with
      | nil =>
          intro x hx
          simp at h hx
          right; rw [hx, h]
      | cons b t2 =>
          have h2 : (b :: t2).getLast? = some e := by simpa using h
          intro x hx
          rcases List.mem_cons.mp hx with rfl | hx2
          · left; simp [List.dropLast]
          · rcases ih h2 x hx2 with hd | rfl
            · left; simp [List.dropLast]; right; exact hd
            · right; rfl

/-- An error in the logged-error projection of a trace comes from a
log-write entry of that trace. -/
theorem logError_mem_of_mem_loggedErrors (t : List Effect) (e : ErrorResponse)
    (h : e ∈ loggedErrors t) : Effect.logError e ∈ t := by
  simp only [loggedErrors, List.mem_filterMap] at h
  rcases h with ⟨a, ha, hfa⟩
  cases a <;> simp at hfa
  rw [← hfa]; exact ha

/-- With a successful search, the re-trigger run is the candidate fold: the
response from its final error, the trace from its accumulated trace. -/
theorem mergePullRequests_eq_fold (env : Env) (se : StatusEvent)
    (l : List SearchIssue)
    (hs : env.searchResult (searchQuery se) = Except.ok l) :
    mergePullRequestsReadyForMerging env se =
      ((match (l.foldl (mergeLoopStep env se)
            (none, [Effect.searchCall (searchQuery se)])).1 with
        | some e => Response.error e
        | none =>
            Response.success ("Successfully merged " ++ toString l.length ++ " PRs")),
       (l.foldl (mergeLoopStep env se)
         (none, [Effect.searchCall (searchQuery se)])).2) := by
  rcases hf : l.foldl (mergeLoopStep env se)
      (none, [Effect.searchCall (searchQuery se)]) with ⟨fe, t⟩
  cases fe <;> simp [mergePullRequestsReadyForMerging, hs, hf]

/-- C4: when every candidate of a successful search merges cleanly
(including a search with no candidates), the re-trigger run returns Success
counting the merges performed. -/
theorem C4_all_candidates_merged_success (env : Env) (se : StatusEvent)
    (l : List SearchIssue)
    (hs : env.searchResult (searchQuery se) = Except.ok l)
    (hall : ∀ c ∈ l, (mergeReadyPR env (issueOfSearchResult se c)).1 = none) :
    (mergePullRequestsReadyForMerging env se).1 =
      Response.success ("Successfully merged " ++ toString l.length ++ " PRs") := by
  have hcf : candidateFailures env se l = [] := by
    simp only [candidateFailures, List.filterMap_eq_nil_iff]
    exact hall
  have h1 := mergeLoop_foldl_fst env se l
    (none, [Effect.searchCall (searchQuery se)])
  rw [hcf] at h1
  rw [mergePullRequests_eq_fold env se l hs]
  simp [h1, lastErrOr]

/-- Witness for C4: a search returning two candidates that both merge
yields the message counting two merged PRs. -/
theorem C4_witness :
    envBatchOkW.searchResult (searchQuery seW) = Except.ok candidatesOkW ∧
    (∀ c ∈ candidatesOkW,
      (mergeReadyPR envBatchOkW (issueOfSearchResult seW c)).1 = none) ∧
    (mergePullRequestsReadyForMerging envBatchOkW seW).1 =
      Response.success "Successfully merged 2 PRs" :=
  ⟨rfl, by decide,
   C4_all_candidates_merged_success envBatchOkW seW candidatesOkW rfl (by decide)⟩

/-- C3: with a successful search, when the candidate failures end in a last
error e, the re-trigger run returns e as the Error response, every earlier
failure is written to the log trail of the run itself, and after the
response is served every failure (the superseded ones and the returned one)
appears in the log. -/
theorem C3_last_failure_wins_earlier_logged (env : Env) (se : StatusEvent)
    (l : List SearchIssue)
    (hs : env.searchResult (searchQuery se) = Except.ok l)
    (e : ErrorResponse)
    (hlast : (candidateFailures env se l).getLast? = some e) :
    (mergePullRequestsReadyForMerging env se).1 = Response.error e ∧
    (∀ e2 ∈ (candidateFailures env se l).dropLast,
        Effect.logError e2 ∈ (mergePullRequestsReadyForMerging env se).2) ∧
    (∀ e2 ∈ candidateFailures env se l,
        Effect.logError e2 ∈ serveAndLog (mergePullRequestsReadyForMerging env se)) := by
  have hfst := mergeLoop_foldl_fst env se l
    (none, [Effect.searchCall (searchQuery se)])
  rw [lastErrOr_eq_of_getLastEq (candidateFailures env se l) e hlast none] at hfst
  have hlog := mergeLoop_foldl_logged env se l
    (none, [Effect.searchCall (searchQuery se)])
  rw [overwrittenLog_none] at hlog
  have hmpr := mergePullRequests_eq_fold env se l hs
  have hresp : (mergePullRequestsReadyForMerging env se).1 = Response.error e := by
    rw [hmpr]; simp [hfst]
  have htrace : (mergePullRequestsReadyForMerging env se).2 =
      (l.foldl (mergeLoopStep env se)
        (none, [Effect.searchCall (searchQuery se)])).2 := by
    rw [hmpr]
  have hmemdrop : ∀ e2 ∈ (candidateFailures env se l).dropLast,
      Effect.logError e2 ∈ (mergePullRequestsReadyForMerging env se).2 := by
    intro e2 he2
    apply logError_mem_of_mem_loggedErrors
    rw [htrace, hlog]
    simpa [loggedErrors] using he2
  refine ⟨hresp, hmemdrop, ?_⟩
  intro e2 he2
  have hserve : serveAndLog (mergePullRequestsReadyForMerging env se) =
      (mergePullRequestsReadyForMerging env se).2 ++ [Effect.logError e] := by
    rcases hp : mergePullRequestsReadyForMerging env se with ⟨r, t⟩
    rw [hp] at hresp
    simp at hresp
    simp [serveAndLog, hresp]
  rw [hserve]
  rcases mem_dropLast_or_eq_of_getLastEq (candidateFailures env se l) e hlast e2 he2
    with hd | rfl
  · exact List.mem_append_left _ (hmemdrop e2 hd)
  · exact List.mem_append_right _ (by simp)

/-- Witness for C3: four candidates with failures exactly on candidates 2
and 4: the response is the error of candidate 4, the error of candidate 2
is in the run's log trail, and both errors appear in the served log. -/
theorem C3_witness :
    envBatch24W.searchResult (searchQuery seW) = Except.ok candidates4W ∧
    (candidateFailures envBatch24W seW candidates4W).getLast? = some errResp4W ∧
    (mergePullRequestsReadyForMerging envBatch24W seW).1 =
      Response.error errResp4W ∧
    (∀ e2 ∈ (candidateFailures envBatch24W seW candidates4W).dropLast,
        Effect.logError e2 ∈ (mergePullRequestsReadyForMerging envBatch24W seW).2) ∧
    Effect.logError errResp2W ∈ (mergePullRequestsReadyForMerging envBatch24W seW).2 ∧
    Effect.logError errResp2W ∈
      serveAndLog (mergePullRequestsReadyForMerging envBatch24W seW) ∧
    Effect.logError errResp4W ∈
      serveAndLog (mergePullRequestsReadyForMerging envBatch24W seW) := by
  have A := C3_last_failure_wins_earlier_logged envBatch24W seW candidates4W rfl
    errResp4W (by decide)
  exact ⟨rfl, by decide, A.1, A.2.1, A.2.1 errResp2W (by decide),
    A.2.2 errResp2W (by decide), A.2.2 errResp4W (by decide)⟩

/-- C1 (amended): assuming the remote label calls and the conflict
notification comment call succeed, every operation of the core preserves
the invariant: the processed PR carries the "merging" label after the run
iff its accepted merge command was not resolved by the run (merged, found
already merged, or failed with the conflict notification delivered). -/
theorem C1_merging_label_invariant (env : Env)
    (hal : ∀ r n lbl, env.addLabelResult r n lbl = none)
    (hrl : ∀ r n lbl, env.removeLabelResult r n lbl = none)
    (hcm : ∀ m r n, env.commentResult m r n = none) :
    mergingLabelInvariant env := by
  refine ⟨?_, ?_, ?_, ?_⟩
  · intro ic resp t h l0
    exact handleMergeCommand_label_resolved env hal hrl hcm ic resp t h l0
  · intro issue
    simpa using mergeReadyPR_label_resolved env issue hrl hcm
      issue.repository issue.number true
  · intro issue
    simpa using handleMergeConflict_label_resolved env issue hrl hcm
      issue.repository issue.number true
  · intro se l hs c hc
    have htr : (mergePullRequestsReadyForMerging env se).2 =
        (l.foldl (mergeLoopStep env se)
          (none, [Effect.searchCall (searchQuery se)])).2 := by
      rw [mergePullRequests_eq_fold env se l hs]
    rw [htr,
      mergeLoop_foldl_labelAfter env se hrl hcm se.repository c.number l
        (none, [Effect.searchCall (searchQuery se)]) true,
      mergeLoop_foldl_resolved env se se.repository c.number l
        (none, [Effect.searchCall (searchQuery se)])]
    simp [labelAfter, labelStep, runResolvedFor, resolvesFor]

/-- Witness for C1 at a concrete environment whose label and comment calls
all succeed. -/
theorem C1_witness :
    (∀ r n lbl, envAllOkW.addLabelResult r n lbl = none) ∧
    (∀ r n lbl, envAllOkW.removeLabelResult r n lbl = none) ∧
    (∀ m r n, envAllOkW.commentResult m r n = none) ∧
    mergingLabelInvariant envAllOkW :=
  ⟨fun _ _ _ => rfl, fun _ _ _ => rfl, fun _ _ _ => rfl,
   C1_merging_label_invariant envAllOkW (fun _ _ _ => rfl) (fun _ _ _ => rfl)
     (fun _ _ _ => rfl)⟩

/-- Counterexample to C1 as stated: with every remote label call
succeeding but the conflict comment post failing, running the conflict
handler removes the "merging" label while the merge command stays
unresolved (the notification was not delivered), so the label-iff-pending
invariant does not survive the operation and the as-stated invariant
property fails for this environment. -/
theorem C1_counterexample :
    (∀ r n lbl, envConflictCommentFailW.addLabelResult r n lbl = none) ∧
    (∀ r n lbl, envConflictCommentFailW.removeLabelResult r n lbl = none) ∧
    labelAfter issueCexW.repository issueCexW.number
      (handleMergeConflict envConflictCommentFailW issueCexW).2 true = false ∧
    runResolvedFor envConflictCommentFailW issueCexW.repository issueCexW.number
      (handleMergeConflict envConflictCommentFailW issueCexW).2 = false ∧
    ¬ mergingLabelInvariant envConflictCommentFailW :=
  ⟨fun _ _ _ => rfl, fun _ _ _ => rfl, by decide, by decide,
   fun h => absurd (h.2.2.1 issueCexW) (by decide)⟩

/-- C9: the command detector returns true exactly when the body trimmed of
leading and trailing whitespace is the literal "!merge"; embedded
whitespace, extra surrounding text, or different casing yield false. -/
theorem C9_merge_command_detector (s : String) :
    (isMergeCommand s = true ↔ trimSpace s = "!merge") ∧
    isMergeCommand "  !merge\n" = true ∧
    isMergeCommand "!merge" = true ∧
    isMergeCommand "! merge" = false ∧
    isMergeCommand "a !merge" = false ∧
    isMergeCommand "!merge please" = false ∧
    isMergeCommand "!MERGE" = false := by
  refine ⟨?_, by decide, by decide, by decide, by decide, by decide, by decide⟩
  simp [isMergeCommand]

/-- C8: when the initial add of the "merging" label fails,
`handleMergeCommand` returns that failure as the Error response and its
trace holds the label add only: no PR fetch, status fetch, squash, merge or
comment happened. -/
theorem C8_add_label_failure_aborts (env : Env) (ic : IssueComment)
    (e : ErrorResponse)
    (hal : env.addLabelResult ic.repository ic.issueNumber MergingLabel = some e) :
    handleMergeCommand env ic =
      some (Response.error e,
        [Effect.addLabelCall ic.repository ic.issueNumber MergingLabel]) := by
  simp [handleMergeCommand, hal]

/-- Witness for C8 at a concrete environment whose add-label call fails. -/
theorem C8_witness :
    envAddFailW.addLabelResult icW.repository icW.issueNumber MergingLabel =
      some addFailErrW ∧
    handleMergeCommand envAddFailW icW =
      some (Response.error addFailErrW,
        [Effect.addLabelCall icW.repository icW.issueNumber MergingLabel]) :=
  ⟨rfl, C8_add_label_failure_aborts envAddFailW icW addFailErrW rfl⟩

/-- C7 (code evaluation): on a fetched PR whose Mergeable field is unknown
(null), the run of `handleMergeCommand` faults: the embedded run is `none`,
the image of the Go nil-pointer dereference panic on `*pr.Mergeable`. -/
theorem C7_nil_mergeable_run_panics :
    handleMergeCommand envNilMergeableW icW = none := rfl

/-- C6: on an open PR that is not mergeable, `handleMergeCommand` returns
Success with no message and its trace holds exactly the label add and the
PR fetch: no status fetch, squash, merge, comment, or further label
change. -/
theorem C6_not_mergeable_is_silent (env : Env) (ic : IssueComment)
    (pr : PullRequest)
    (hal : env.addLabelResult ic.repository ic.issueNumber MergingLabel = none)
    (hpr : env.getPRResult ic.repository ic.issueNumber = Except.ok pr)
    (hm : pr.merged = some false)
    (hmb : pr.mergeable = some false) :
    handleMergeCommand env ic =
      some (Response.success "",
        [Effect.addLabelCall ic.repository ic.issueNumber MergingLabel,
         Effect.getPRCall ic.repository ic.issueNumber]) := by
  simp [handleMergeCommand, hal, hpr, hm, hmb]

/-- Witness for C6 at a concrete not-mergeable PR. -/
theorem C6_witness :
    envNotMergeableW.addLabelResult icW.repository icW.issueNumber MergingLabel = none ∧
    envNotMergeableW.getPRResult icW.repository icW.issueNumber =
      Except.ok { merged := some false, mergeable := some false, headSHA := "headsha" } ∧
    handleMergeCommand envNotMergeableW icW =
      some (Response.success "",
        [Effect.addLabelCall icW.repository icW.issueNumber MergingLabel,
         Effect.getPRCall icW.repository icW.issueNumber]) :=
  ⟨rfl, rfl, C6_not_mergeable_is_silent envNotMergeableW icW _ rfl rfl rfl rfl⟩

/-- C5: on an already-merged PR whose label calls succeed, every invocation
of `handleMergeCommand` returns Success and performs exactly the label add,
the PR fetch and one removal of the "merging" label, with no merge call;
two invocations (each against a remote state satisfying the same
conditions) give this same outcome both times. -/
theorem C5_already_merged_idempotent (env1 env2 : Env) (ic : IssueComment)
    (pr1 pr2 : PullRequest)
    (hal1 : env1.addLabelResult ic.repository ic.issueNumber MergingLabel = none)
    (hpr1 : env1.getPRResult ic.repository ic.issueNumber = Except.ok pr1)
    (hm1 : pr1.merged = some true)
    (hrl1 : env1.removeLabelResult ic.repository ic.issueNumber MergingLabel = none)
    (hal2 : env2.addLabelResult ic.repository ic.issueNumber MergingLabel = none)
    (hpr2 : env2.getPRResult ic.repository ic.issueNumber = Except.ok pr2)
    (hm2 : pr2.merged = some true)
    (hrl2 : env2.removeLabelResult ic.repository ic.issueNumber MergingLabel = none) :
    handleMergeCommand env1 ic =
      some (Response.success "",
        [Effect.addLabelCall ic.repository ic.issueNumber MergingLabel,
         Effect.getPRCall ic.repository ic.issueNumber,
         Effect.removeLabelCall ic.repository ic.issueNumber MergingLabel]) ∧
    handleMergeCommand env2 ic = handleMergeCommand env1 ic ∧
    countRemoveLabelCalls
      [Effect.addLabelCall ic.repository ic.issueNumber MergingLabel,
       Effect.getPRCall ic.repository ic.issueNumber,
       Effect.removeLabelCall ic.repository ic.issueNumber MergingLabel] = 1 ∧
    countMergeCalls
      [Effect.addLabelCall ic.repository ic.issueNumber MergingLabel,
       Effect.getPRCall ic.repository ic.issueNumber,
       Effect.removeLabelCall ic.repository ic.issueNumber MergingLabel] = 0 := by
  have h1 : handleMergeCommand env1 ic =
      some (Response.success "",
        [Effect.addLabelCall ic.repository ic.issueNumber MergingLabel,
         Effect.getPRCall ic.repository ic.issueNumber,
         Effect.removeLabelCall ic.repository ic.issueNumber MergingLabel]) := by
    simp [handleMergeCommand, hal1, hpr1, hm1, hrl1]
  have h2 : handleMergeCommand env2 ic =
      some (Response.success "",
        [Effect.addLabelCall ic.repository ic.issueNumber MergingLabel,
         Effect.getPRCall ic.repository ic.issueNumber,
         Effect.removeLabelCall ic.repository ic.issueNumber MergingLabel]) := by
    simp [handleMergeCommand, hal2, hpr2, hm2, hrl2]
  refine ⟨h1, h2.trans h1.symm, ?_, ?_⟩ <;>
    simp [countRemoveLabelCalls, countMergeCalls]

/-- Witness for C5 at a concrete already-merged PR, invoked twice against
the same remote outcomes. -/
theorem C5_witness :
    envMergedW.addLabelResult icW.repository icW.issueNumber MergingLabel = none ∧
    envMergedW.getPRResult icW.repository icW.issueNumber =
      Except.ok { merged := some true, mergeable := some true, headSHA := "headsha" } ∧
    envMergedW.removeLabelResult icW.repository icW.issueNumber MergingLabel = none ∧
    (handleMergeCommand envMergedW icW =
      some (Response.success "",
        [Effect.addLabelCall icW.repository icW.issueNumber MergingLabel,
         Effect.getPRCall icW.repository icW.issueNumber,
         Effect.removeLabelCall icW.repository icW.issueNumber MergingLabel]) ∧
     handleMergeCommand envMergedW icW = handleMergeCommand envMergedW icW ∧
     countRemoveLabelCalls
       [Effect.addLabelCall icW.repository icW.issueNumber MergingLabel,
        Effect.getPRCall icW.repository icW.issueNumber,
        Effect.removeLabelCall icW.repository icW.issueNumber MergingLabel] = 1 ∧
     countMergeCalls
       [Effect.addLabelCall icW.repository icW.issueNumber MergingLabel,
        Effect.getPRCall icW.repository icW.issueNumber,
        Effect.removeLabelCall icW.repository icW.issueNumber MergingLabel] = 0) :=
  ⟨rfl, rfl, rfl,
   C5_already_merged_idempotent envMergedW envMergedW icW _ _ rfl rfl rfl rfl
     rfl rfl rfl rfl⟩

/-- C2: the conflict handler posts exactly one comment, that comment
mentions the PR author, and its result is decided by priority: a failed
comment post is returned first, else the earlier label-removal failure,
else nil; all of this for every outcome of the label-removal call. -/
theorem C2_conflict_handler_priority (env : Env) (issue : Issue) :
    countCommentCalls (handleMergeConflict env issue).2 = 1 ∧
    Effect.commentCall (conflictCommentMessage issue) issue.repository issue.number ∈
      (handleMergeConflict env issue).2 ∧
    (∃ pre post, conflictCommentMessage issue = pre ++ "@" ++ issue.user.login ++ post) ∧
    (handleMergeConflict env issue).1 =
      (match env.commentResult (conflictCommentMessage issue) issue.repository
          issue.number with
       | some err =>
           some { error := err, code := StatusBadGateway,
                  errorMessage := "Failed to notify the author of PR " ++
                    issue.fullName ++ " about the merge conflict" }
       | none => env.removeLabelResult issue.repository issue.number MergingLabel) := by
  refine ⟨?_, ?_, ?_, ?_⟩
  · rcases hc : env.commentResult (conflictCommentMessage issue) issue.repository
        issue.number with - | err <;>
      rcases hr : env.removeLabelResult issue.repository issue.number MergingLabel
        with - | r <;>
      simp [handleMergeConflict, countCommentCalls, hc, hr]
  · rcases hc : env.commentResult (conflictCommentMessage issue) issue.repository
        issue.number with - | err <;>
      rcases hr : env.removeLabelResult issue.repository issue.number MergingLabel
        with - | r <;>
      simp [handleMergeConflict, hc, hr]
  · exact ⟨"I\x27m unable to merge this PR because of a merge conflict. ",
      ", can you please take a look?", rfl⟩
  · rcases hc : env.commentResult (conflictCommentMessage issue) issue.repository
        issue.number with - | err <;>
      rcases hr : env.removeLabelResult issue.repository issue.number MergingLabel
        with - | r <;>
      simp [handleMergeConflict, hc, hr]

/-- C10: when the merge call fails with the conflict error and the conflict
is handled fully (label removed, author comment delivered),
`handleMergeCommand` still reports Success with the "Successfully merged
PR" message, even though the merge call did not succeed. -/
theorem C10_conflict_path_reports_success (env : Env) (ic : IssueComment)
    (pr : PullRequest) (statuses : List RepoStatus)
    (hal : env.addLabelResult ic.repository ic.issueNumber MergingLabel = none)
    (hpr : env.getPRResult ic.repository ic.issueNumber = Except.ok pr)
    (hm : pr.merged = some false)
    (hmb : pr.mergeable = some true)
    (hst : env.getStatusesResult pr.headSHA = Except.ok ("success", statuses))
    (hmg : env.mergeResult ic.repository ic.issueNumber = some GoError.mergeConflict)
    (hrl : env.removeLabelResult ic.repository ic.issueNumber MergingLabel = none)
    (hcm : env.commentResult (conflictCommentMessage ic.issue) ic.repository
      ic.issueNumber = none) :
    handleMergeCommand env ic =
      some (Response.success ("Successfully merged PR " ++ ic.issue.fullName),
        [Effect.addLabelCall ic.repository ic.issueNumber MergingLabel,
         Effect.getPRCall ic.repository ic.issueNumber,
         Effect.getStatusesCall ic.repository pr.headSHA,
         Effect.mergeCall ic.repository ic.issueNumber,
         Effect.removeLabelCall ic.repository ic.issueNumber MergingLabel,
         Effect.commentCall (conflictCommentMessage ic.issue) ic.repository
           ic.issueNumber]) := by
  simp only [IssueComment.issue] at hcm ⊢
  simp [handleMergeCommand, mergeReadyPR, handleMergeConflict, IssueComment.issue,
    hal, hpr, hm, hmb, hst, hmg, hrl, hcm]

/-- Witness for C10 at a concrete conflicting merge whose conflict handling
succeeds. -/
theorem C10_witness :
    envConflictOkW.mergeResult icW.repository icW.issueNumber =
      some GoError.mergeConflict ∧
    envConflictOkW.commentResult (conflictCommentMessage icW.issue) icW.repository
      icW.issueNumber = none ∧
    handleMergeCommand envConflictOkW icW =
      some (Response.success "Successfully merged PR owner/repo#7",
        [Effect.addLabelCall icW.repository icW.issueNumber MergingLabel,
         Effect.getPRCall icW.repository icW.issueNumber,
         Effect.getStatusesCall icW.repository prOpenW.headSHA,
         Effect.mergeCall icW.repository icW.issueNumber,
         Effect.removeLabelCall icW.repository icW.issueNumber MergingLabel,
         Effect.commentCall (conflictCommentMessage icW.issue) icW.repository
           icW.issueNumber]) :=
  ⟨rfl, rfl,
   C10_conflict_path_reports_success envConflictOkW icW prOpenW [] rfl rfl rfl rfl
     rfl rfl rfl rfl⟩

end GRH
